import Mathlib

/-!
Verification of the J1939 identifier codecs, filter encoder, socket-address
adapter, connection state machine and option surface of the socketcan J1939
layer (src/j1939/{protocol,filter,addr,socket,options}.rs).

Machine integers are embedded as `Nat` with explicit `% 2^w` where the source
truncates.  The source's `bitvec` slice operations
`view_bits::<Lsb0>()[off..off+w].load_le()` / `.store_le(v)` read and write the
bit range `[off, off+w)` of the underlying word LSB-first; they are embedded as
the arithmetic functions `bvLoad` / `bvStore` below.  The OS socket calls
(`bind`, `connect`, `setsockopt`, ...) are external collaborators; only the
data this layer hands to them (state tags, option buffers, address records) is
modelled.
-/

namespace SocketCan

/-! ## libc constants used by the crate -/

/-- libc: `J1939_PGN_MAX = 0x3FFFF` (18-bit all-ones). -/
def J1939_PGN_MAX : Nat := 0x3FFFF

/-- libc: `J1939_PGN_PDU1_MAX = 0x3FF00`. -/
def J1939_PGN_PDU1_MAX : Nat := 0x3FF00

/-- libc: `AF_CAN = 29`. -/
def AF_CAN : Nat := 29

/-! ## Bit-range load/store (semantics of bitvec `load_le` / `store_le`) -/

/-- Value of the bit range `[off, off+w)` of `x`, LSB-first
(`view_bits::<Lsb0>()[off..off+w].load_le()`). -/
def bvLoad (x off w : Nat) : Nat := x / 2 ^ off % 2 ^ w

/-- Write the low `w` bits of `v` into the bit range `[off, off+w)` of `x`,
leaving all other bits unchanged
(`view_bits_mut::<Lsb0>()[off..off+w].store_le(v)`). -/
def bvStore (x off w v : Nat) : Nat :=
  x % 2 ^ off + v % 2 ^ w * 2 ^ off + x / 2 ^ (off + w) * 2 ^ (off + w)

/-- Bit `i` of `x` as a `Bool` (`view_bits::<Lsb0>()[i]`). -/
def bitGet (x i : Nat) : Bool := x / 2 ^ i % 2 = 1

/-- Replace bit `i` of `x` by the boolean `b`
(`view_bits_mut::<Lsb0>().replace(i, b)`). -/
def bitSet (x i : Nat) (b : Bool) : Nat := bvStore x i 1 (if b then 1 else 0)

/-! ## `Pgn` (src/j1939/protocol.rs)

`pub struct Pgn(u32)`; bits 0-7 PDU specific, bits 8-15 PDU format, bit 16
data page, bit 17 reserved. -/

structure Pgn where
  val : Nat
deriving DecidableEq

namespace Pgn

/-- `Pgn::from(pgn: u32)`: truncates to the 18 bits of a valid PGN
(`Pgn(pgn & J1939_PGN_MAX)`). -/
def fromU32 (pgn : Nat) : Pgn := ⟨pgn &&& J1939_PGN_MAX⟩

/-- `Pgn::data_page`: `self.0.view_bits::<Lsb0>()[16]`. -/
def data_page (p : Pgn) : Bool := bitGet p.val 16

/-- `Pgn::set_data_page`: `self.0.view_bits_mut::<Lsb0>().replace(16, value)`. -/
def set_data_page (p : Pgn) (value : Bool) : Pgn := ⟨bitSet p.val 16 value⟩

/-- `Pgn::pdu_format`: `self.0.view_bits::<Lsb0>()[8..16].load_le()`. -/
def pdu_format (p : Pgn) : Nat := bvLoad p.val 8 8

/-- `Pgn::set_pdu_format`: `self.0.view_bits_mut::<Lsb0>()[8..16].store_le(value)`. -/
def set_pdu_format (p : Pgn) (value : Nat) : Pgn := ⟨bvStore p.val 8 8 value⟩

/-- `Pgn::pdu_specific`: `self.0.view_bits::<Lsb0>()[0..8].load_le()`. -/
def pdu_specific (p : Pgn) : Nat := bvLoad p.val 0 8

/-- `Pgn::set_pdu_specific`: `self.0.view_bits_mut::<Lsb0>()[0..8].store_le(value)`. -/
def set_pdu_specific (p : Pgn) (value : Nat) : Pgn := ⟨bvStore p.val 0 8 value⟩

/-- `Pgn::new(data_page, pdu_format, pdu_specific)`: starts from `Pgn(0)` and
applies the three mutators in the source's order. -/
def new (dp : Bool) (pf ps : Nat) : Pgn :=
  (((⟨0⟩ : Pgn).set_data_page dp).set_pdu_format pf).set_pdu_specific ps

/-- `Pgn::is_pdu1`: `self.pdu_format() <= 239`. -/
def is_pdu1 (p : Pgn) : Bool := p.pdu_format ≤ 239

/-- `Pgn::is_pdu2`: `self.pdu_format() >= 240`. -/
def is_pdu2 (p : Pgn) : Bool := 240 ≤ p.pdu_format

/-- `impl From<Pgn> for u32`: masks with `J1939_PGN_PDU1_MAX` when the PGN is
in PDU1 format, otherwise returns the raw value. -/
def toU32 (p : Pgn) : Nat :=
  if p.is_pdu1 then p.val &&& J1939_PGN_PDU1_MAX else p.val

/-- `Pgn::to_le_bytes`: the first three little-endian bytes of the inner
`u32` (no PDU1 masking is applied here in the source). -/
def to_le_bytes (p : Pgn) : List Nat :=
  [p.val % 2 ^ 8, p.val / 2 ^ 8 % 2 ^ 8, p.val / 2 ^ 16 % 2 ^ 8]

/-- `Pgn::from_le_bytes`: zero-extends the three bytes to a `u32` and goes
through `Pgn::from`. -/
def from_le_bytes (buf : List Nat) : Pgn :=
  fromU32 (buf.getD 0 0 + buf.getD 1 0 * 2 ^ 8 + buf.getD 2 0 * 2 ^ 16)

end Pgn

/-! ## `Addr` (src/j1939/protocol.rs): `pub struct Addr(u8)` -/

structure Addr where
  val : Nat
deriving DecidableEq

namespace Addr

/-- `Addr::NO_ADDR` / `Addr::BROADCAST` (= libc `J1939_NO_ADDR` = 0xFF). -/
def NO_ADDR : Addr := ⟨0xFF⟩

/-- `Addr::IDLE_ADDR` (= libc `J1939_IDLE_ADDR` = 0xFE). -/
def IDLE_ADDR : Addr := ⟨0xFE⟩

/-- `impl From<u8> for Addr` (identity). -/
def fromU8 (value : Nat) : Addr := ⟨value⟩

/-- `impl From<Addr> for u8` (identity). -/
def toU8 (a : Addr) : Nat := a.val

end Addr

/-! ## `Name` (src/j1939/protocol.rs)

`pub struct Name(BitArr!(for 64))`: a 64-bit bit-packed record.  The bitvec
array round-trips with `u64` through `store`/`load_le`, so it is embedded as a
`Nat` below `2^64`. -/

structure Name where
  val : Nat
deriving DecidableEq

namespace Name

/-- `impl From<u64> for Name`: `name.0.store(value)` over the 64-bit array. -/
def fromU64 (value : Nat) : Name := ⟨value % 2 ^ 64⟩

/-- `impl From<Name> for u64`: `name.0.load_le()`. -/
def toU64 (n : Name) : Nat := n.val

/-- `Name::arbitrary_address_capable`: bit 63. -/
def arbitrary_address_capable (n : Name) : Bool := bitGet n.val 63

/-- `Name::set_arbitrary_address_capable`: `self.0.replace(63, val)`. -/
def set_arbitrary_address_capable (n : Name) (val : Bool) : Name :=
  ⟨bitSet n.val 63 val⟩

/-- `Name::industry_group`: bits `[60, 63)`. -/
def industry_group (n : Name) : Nat := bvLoad n.val 60 3

/-- `Name::set_industry_group`: `self.0[60..63].store_le(value)`. -/
def set_industry_group (n : Name) (value : Nat) : Name :=
  ⟨bvStore n.val 60 3 value⟩

/-- `Name::vehicle_system_instance`: bits `[56, 60)`. -/
def vehicle_system_instance (n : Name) : Nat := bvLoad n.val 56 4

/-- `Name::set_vehicle_system_instance`: `self.0[56..60].store_le(value)`. -/
def set_vehicle_system_instance (n : Name) (value : Nat) : Name :=
  ⟨bvStore n.val 56 4 value⟩

/-- `Name::vehicle_system`: bits `[49, 56)`. -/
def vehicle_system (n : Name) : Nat := bvLoad n.val 49 7

/-- `Name::set_vehicle_system`: `self.0[49..56].store_le(value)`. -/
def set_vehicle_system (n : Name) (value : Nat) : Name :=
  ⟨bvStore n.val 49 7 value⟩

/-- `Name::function`: bits `[40, 48)`. -/
def function (n : Name) : Nat := bvLoad n.val 40 8

/-- `Name::set_function`: `self.0[40..48].store_le(value)`. -/
def set_function (n : Name) (value : Nat) : Name :=
  ⟨bvStore n.val 40 8 value⟩

/-- `Name::function_instance`: bits `[35, 40)`. -/
def function_instance (n : Name) : Nat := bvLoad n.val 35 5

/-- `Name::set_function_instance`: `self.0[35..40].store_le(value)`. -/
def set_function_instance (n : Name) (value : Nat) : Name :=
  ⟨bvStore n.val 35 5 value⟩

/-- `Name::ecu_instance`: bits `[32, 35)`. -/
def ecu_instance (n : Name) : Nat := bvLoad n.val 32 3

/-- `Name::set_ecu_instance`: `self.0[32..35].store_le(value)`. -/
def set_ecu_instance (n : Name) (value : Nat) : Name :=
  ⟨bvStore n.val 32 3 value⟩

/-- `Name::manufacturer_code`: bits `[21, 32)`. -/
def manufacturer_code (n : Name) : Nat := bvLoad n.val 21 11

/-- `Name::set_manufacturer_code`: `self.0[21..32].store_le(value)`. -/
def set_manufacturer_code (n : Name) (value : Nat) : Name :=
  ⟨bvStore n.val 21 11 value⟩

/-- `Name::identity_number`: bits `[0, 21)`. -/
def identity_number (n : Name) : Nat := bvLoad n.val 0 21

/-- `Name::set_identity_number`: `self.0[0..21].store_le(value)`. -/
def set_identity_number (n : Name) (value : Nat) : Name :=
  ⟨bvStore n.val 0 21 value⟩

end Name

/-- The `(offset, width)` bit ranges of the NAME sub-field accessor/mutator
pairs that exist in src/j1939/protocol.rs, in the order the impl block lists
them: `arbitrary_address_capable`, `industry_group`,
`vehicle_system_instance`, `vehicle_system`, `function`, `function_instance`,
`ecu_instance`, `manufacturer_code`, `identity_number`.  Bit 48 (the reserved
sub-field of the documented layout) has no accessor or mutator. -/
def nameFieldRanges : List (Nat × Nat) :=
  [(63, 1), (60, 3), (56, 4), (49, 7), (40, 8), (35, 5), (32, 3), (21, 11),
    (0, 21)]

/-! ## Filter encoder (src/j1939/filter.rs) -/

/-- `enum NameFilterMask { Partial(u64), Full }`. -/
inductive NameFilterMask where
  | Partial (mask : Nat)
  | Full
deriving DecidableEq

/-- `impl From<NameFilterMask> for u64`. -/
def NameFilterMask.toU64 : NameFilterMask → Nat
  | .Full => 0xFFFFFFFFFFFFFFFF
  | .Partial mask => mask

/-- `enum PgnFilterMask { Pdu1, Partial(u32), Full }`. -/
inductive PgnFilterMask where
  | Pdu1
  | Partial (mask : Nat)
  | Full
deriving DecidableEq

/-- `impl From<PgnFilterMask> for u32`. -/
def PgnFilterMask.toU32 : PgnFilterMask → Nat
  | .Pdu1 => J1939_PGN_PDU1_MAX
  | .Partial mask => mask &&& J1939_PGN_MAX
  | .Full => J1939_PGN_MAX

/-- `enum AddrFilterMask { Partial(u8), Full }`. -/
inductive AddrFilterMask where
  | Partial (mask : Nat)
  | Full
deriving DecidableEq

/-- `impl From<AddrFilterMask> for u8`. -/
def AddrFilterMask.toU8 : AddrFilterMask → Nat
  | .Full => 0xFF
  | .Partial mask => mask

/-- `struct NameFilter { name: u64, mask: u64 }`. -/
structure NameFilter where
  name : Nat
  mask : Nat
deriving DecidableEq

/-- `NameFilter::new(name, mask)`. -/
def NameFilter.new (name : Name) (mask : NameFilterMask) : NameFilter :=
  ⟨name.toU64, mask.toU64⟩

/-- `struct PgnFilter { pgn: u32, mask: u32 }`. -/
structure PgnFilter where
  pgn : Nat
  mask : Nat
deriving DecidableEq

/-- `PgnFilter::new(pgn, mask)`: `pgn: pgn.into()` uses
`impl From<Pgn> for u32` (the PDU1-masked wire form). -/
def PgnFilter.new (pgn : Pgn) (mask : PgnFilterMask) : PgnFilter :=
  ⟨pgn.toU32, mask.toU32⟩

/-- `struct AddrFilter { addr: u8, mask: u8 }`. -/
structure AddrFilter where
  addr : Nat
  mask : Nat
deriving DecidableEq

/-- `AddrFilter::new(addr, mask)`. -/
def AddrFilter.new (addr : Addr) (mask : AddrFilterMask) : AddrFilter :=
  ⟨addr.toU8, mask.toU8⟩

/-- `struct J1939Filter(j1939_filter)`: the wire-format filter record. -/
structure J1939Filter where
  name : Nat
  name_mask : Nat
  pgn : Nat
  pgn_mask : Nat
  addr : Nat
  addr_mask : Nat
deriving DecidableEq

/-- `J1939Filter::new(name_filter, pgn_filter, addr_filter)`. -/
def J1939Filter.new (nf : NameFilter) (pf : PgnFilter) (af : AddrFilter) :
    J1939Filter :=
  ⟨nf.name, nf.mask, pf.pgn, pf.mask, af.addr, af.mask⟩

/-! ## Socket address adapter (src/j1939/addr.rs) -/

/-- `enum J1939SockAddrError { InvalidAddressFamily }`. -/
inductive J1939SockAddrError where
  | InvalidAddressFamily
deriving DecidableEq

/-- The generic family-tagged address container (`sockaddr_storage` as held by
a `socket2::SockAddr`), restricted to the bytes the J1939 reinterpretation
reads: the family tag and the `sockaddr_can` fields at their fixed offsets. -/
structure SockAddrStorage where
  ss_family : Nat
  can_ifindex : Nat
  name : Nat
  pgn : Nat
  addr : Nat
deriving DecidableEq

/-- `struct J1939SockAddr(sockaddr_can)` with the J1939 branch of the address
union. -/
structure J1939SockAddr where
  can_family : Nat
  can_ifindex : Nat
  name : Nat
  pgn : Nat
  addr : Nat
deriving DecidableEq

/-- `impl TryFrom<SockAddr> for J1939SockAddr`: errors with
`InvalidAddressFamily` when the container's family tag is not `AF_CAN`,
otherwise reinterprets the leading bytes as a `sockaddr_can`.  Total (no
panic): every input yields either `error` or `ok`. -/
def J1939SockAddr.try_from (a : SockAddrStorage) :
    Except J1939SockAddrError J1939SockAddr :=
  if a.ss_family ≠ AF_CAN then .error .InvalidAddressFamily
  else .ok ⟨a.ss_family, a.can_ifindex, a.name, a.pgn, a.addr⟩

/-! ## Socket core (src/j1939/socket.rs) -/

/-- The I/O error values this layer itself constructs
(`IoError::other("...")`); OS errors are surfaced verbatim and opaque here. -/
inductive IoError where
  | other (msg : String)
deriving DecidableEq

/-- The address-decoding tail of `J1939Socket::recv_from`, applied to the
`(bytes_read, addr)` pair returned by the underlying `socket2` receive call:
`J1939SockAddr::try_from(addr).map_err(|_e| IoError::other("Invalid source
address"))?`. -/
def recv_from_decode (bytes_read : Nat) (src : SockAddrStorage) :
    Except IoError (Nat × J1939SockAddr) :=
  match J1939SockAddr.try_from src with
  | .error _ => .error (.other "Invalid source address")
  | .ok sa_addr => .ok (bytes_read, sa_addr)

/-- The typestate marker of `J1939Socket<S: Peer>`: `Unlinked` or `Linked`. -/
inductive PeerState where
  | Unlinked
  | Linked
deriving DecidableEq

/-- The socket operations of src/j1939/socket.rs whose availability depends on
the typestate parameter. -/
inductive SocketOp where
  | rebind
  | connect
  | send_to
  | recv_from
  | read
  | write
deriving DecidableEq

/-- `J1939Socket::open` returns `IoResult<J1939Socket<Unlinked>>`: the state of
a freshly opened socket. -/
def openState : PeerState := .Unlinked

/-- Availability and result state of each operation, read off the impl blocks
of src/j1939/socket.rs: `rebind`/`connect`/`send_to`/`recv_from` are defined
for every `S: Peer`; `connect(self, ..)` consumes the socket and returns
`J1939Socket<Linked>`; `Read`/`Write` are implemented only for
`J1939Socket<Linked>`.  `none` means the operation does not exist on that
state's type (a compile-time absence, not a runtime rejection). -/
def stepState : SocketOp → PeerState → Option PeerState
  | .rebind, s => some s
  | .connect, _ => some .Linked
  | .send_to, s => some s
  | .recv_from, s => some s
  | .read, .Linked => some .Linked
  | .read, .Unlinked => none
  | .write, .Linked => some .Linked
  | .write, .Unlinked => none

/-! ## Option surface (src/j1939/options.rs) -/

/-- The `(optval pointer, optlen)` pair a call to `libc::setsockopt` receives:
whether the pointer is null, and the byte length. -/
structure OptTransfer where
  ptr_null : Bool
  len : Nat
deriving DecidableEq

/-- `size_of::<libc::j1939_filter>()`: two `u64`, two `u32`, two `u8`, padded
to 8-byte alignment. -/
def sizeof_j1939_filter : Nat := 32

/-- The buffer transfer `set_socket_option_mult::<j1939_filter>` performs:
for an empty slice it passes a null pointer and length 0 ("can't pass in a ptr
to a 0-len slice, pass a null ptr instead"); otherwise the slice pointer and
`size_of_val(values)` bytes. -/
def set_socket_option_mult_transfer (values : List J1939Filter) : OptTransfer :=
  if values.isEmpty then ⟨true, 0⟩
  else ⟨false, values.length * sizeof_j1939_filter⟩

/-- `SocketOptions::set_filters`: collects the filters into a vector and hands
its slice to `set_socket_option_mult`. -/
def set_filters_transfer (filters : List J1939Filter) : OptTransfer :=
  set_socket_option_mult_transfer filters

/-! # Theorems -/

/-! ## Generic bit-range lemmas -/

theorem bvStore_decomp (x off w v : Nat) :
    bvStore x off w v
      = x % 2 ^ off + 2 ^ off * (v % 2 ^ w + 2 ^ w * (x / 2 ^ (off + w))) := by
  unfold bvStore
  rw [pow_add]
  ring

theorem bvLoad_bvStore_self (x off w v : Nat) :
    bvLoad (bvStore x off w v) off w = v % 2 ^ w := by
  rw [bvLoad, bvStore_decomp]
  rw [Nat.add_mul_div_left _ _ (Nat.pos_pow_of_pos off (by norm_num)),
    Nat.div_eq_of_lt (Nat.mod_lt _ (Nat.pos_pow_of_pos off (by norm_num))),
    Nat.zero_add, Nat.add_mul_mod_self_left, Nat.mod_mod_of_dvd _ dvd_rfl]

theorem bvStore_mod_low (x off w v : Nat) :
    bvStore x off w v % 2 ^ off = x % 2 ^ off := by
  rw [bvStore_decomp, Nat.add_mul_mod_self_left, Nat.mod_mod_of_dvd _ dvd_rfl]

theorem bvStore_div_high (x off w v : Nat) :
    bvStore x off w v / 2 ^ (off + w) = x / 2 ^ (off + w) := by
  rw [bvStore]
  rw [Nat.add_mul_div_right _ _ (Nat.pos_pow_of_pos (off + w) (by norm_num))]
  have hlt : x % 2 ^ off + v % 2 ^ w * 2 ^ off < 2 ^ (off + w) := by
    have h1 : x % 2 ^ off < 2 ^ off :=
      Nat.mod_lt _ (Nat.pos_pow_of_pos off (by norm_num))
    have h2 : v % 2 ^ w < 2 ^ w :=
      Nat.mod_lt _ (Nat.pos_pow_of_pos w (by norm_num))
    calc x % 2 ^ off + v % 2 ^ w * 2 ^ off
        < 2 ^ off + v % 2 ^ w * 2 ^ off := by omega
      _ = (1 + v % 2 ^ w) * 2 ^ off := by ring
      _ ≤ 2 ^ w * 2 ^ off := Nat.mul_le_mul_right _ (by omega)
      _ = 2 ^ (off + w) := by rw [pow_add]; ring
  rw [Nat.div_eq_of_lt hlt, Nat.zero_add]

/-- Bits strictly below `off` and at or above `off + w` are unchanged by
`bvStore x off w v`; stated through `Nat.testBit`. -/
theorem bvStore_testBit_outside (x off w v k : Nat)
    (hk : k < off ∨ off + w ≤ k) :
    Nat.testBit (bvStore x off w v) k = Nat.testBit x k := by
  cases hk with
  | inl h =>
    have h1 : (bvStore x off w v % 2 ^ off).testBit k
        = (x % 2 ^ off).testBit k := by
      rw [bvStore_mod_low]
    rw [Nat.testBit_mod_two_pow, Nat.testBit_mod_two_pow, decide_eq_true h,
      Bool.true_and, Bool.true_and] at h1
    exact h1
  | inr h =>
    have hdiv : bvStore x off w v / 2 ^ (off + w) = x / 2 ^ (off + w) :=
      bvStore_div_high x off w v
    have hy := Nat.testBit_shiftRight (bvStore x off w v)
      (i := off + w) (j := k - (off + w))
    have hx := Nat.testBit_shiftRight x (i := off + w) (j := k - (off + w))
    rw [Nat.shiftRight_eq_div_pow] at hy hx
    rw [hdiv, hx] at hy
    have hr : off + w + (k - (off + w)) = k := by omega
    rw [hr] at hy
    exact hy.symm

theorem bvLoad_mod_eq (y x off w hi : Nat) (hw : off + w ≤ hi)
    (h : y % 2 ^ hi = x % 2 ^ hi) : bvLoad y off w = bvLoad x off w := by
  unfold bvLoad
  rw [← Nat.mod_mul_right_div_self, ← Nat.mod_mul_right_div_self, ← pow_add,
    ← Nat.mod_mod_of_dvd y (pow_dvd_pow 2 hw),
    ← Nat.mod_mod_of_dvd x (pow_dvd_pow 2 hw), h]

theorem bvLoad_div_eq (y x off w lo : Nat) (hlo : lo ≤ off)
    (h : y / 2 ^ lo = x / 2 ^ lo) : bvLoad y off w = bvLoad x off w := by
  unfold bvLoad
  have hsum : lo + (off - lo) = off := by omega
  have hy : y / 2 ^ off = y / 2 ^ lo / 2 ^ (off - lo) := by
    rw [Nat.div_div_eq_div_mul, ← pow_add, hsum]
  have hx : x / 2 ^ off = x / 2 ^ lo / 2 ^ (off - lo) := by
    rw [Nat.div_div_eq_div_mul, ← pow_add, hsum]
  rw [hy, hx, h]

/-- Loading a range entirely below a stored range is unaffected by the store. -/
theorem bvLoad_bvStore_below (x off w v off2 w2 : Nat) (h : off2 + w2 ≤ off) :
    bvLoad (bvStore x off w v) off2 w2 = bvLoad x off2 w2 :=
  bvLoad_mod_eq _ x off2 w2 off h (bvStore_mod_low x off w v)

/-- Loading a range entirely above a stored range is unaffected by the store. -/
theorem bvLoad_bvStore_above (x off w v off2 w2 : Nat) (h : off + w ≤ off2) :
    bvLoad (bvStore x off w v) off2 w2 = bvLoad x off2 w2 :=
  bvLoad_div_eq _ x off2 w2 (off + w) h (bvStore_div_high x off w v)

theorem bitGet_eq_bvLoad (x i : Nat) :
    bitGet x i = decide (bvLoad x i 1 = 1) := by
  simp [bitGet, bvLoad, pow_one]

theorem bitGet_bitSet_self (x i : Nat) (b : Bool) :
    bitGet (bitSet x i b) i = b := by
  rw [bitGet_eq_bvLoad, bitSet, bvLoad_bvStore_self]
  cases b <;> decide

/-! ## Masking bridges for the literal `&` masks of the source -/

theorem and_pgn_max (x : Nat) : x &&& J1939_PGN_MAX = x % 2 ^ 18 := by
  rw [show J1939_PGN_MAX = 2 ^ 18 - 1 from by norm_num [J1939_PGN_MAX],
    Nat.and_pow_two_sub_one_eq_mod]

theorem and_pdu1_max (x : Nat) :
    x &&& J1939_PGN_PDU1_MAX = x / 2 ^ 8 % 2 ^ 10 * 2 ^ 8 := by
  apply Nat.eq_of_testBit_eq
  intro i
  rw [Nat.testBit_and]
  have hR : x / 2 ^ 8 % 2 ^ 10 * 2 ^ 8 = ((x >>> 8) % 2 ^ 10) <<< 8 := by
    rw [Nat.shiftLeft_eq, Nat.shiftRight_eq_div_pow]
  rw [hR, Nat.testBit_shiftLeft]
  rcases Nat.lt_or_ge i 8 with h8 | h8
  · have hC : Nat.testBit J1939_PGN_PDU1_MAX i = false := by
      interval_cases i <;> decide
    rw [hC]
    simp [Nat.not_le.mpr h8]
  · rw [Nat.testBit_mod_two_pow, Nat.testBit_shiftRight]
    have hadd : 8 + (i - 8) = i := by omega
    rw [hadd]
    rcases Nat.lt_or_ge i 18 with h18 | h18
    · have hC : Nat.testBit J1939_PGN_PDU1_MAX i = true := by
        interval_cases i <;> decide
      have h10 : i - 8 < 10 := by omega
      rw [hC]
      simp [h8, h10]
    · have hC : Nat.testBit J1939_PGN_PDU1_MAX i = false :=
        Nat.testBit_lt_two_pow (lt_of_lt_of_le
          (by norm_num [J1939_PGN_PDU1_MAX])
          (Nat.pow_le_pow_right (by norm_num) h18))
      have h10 : ¬ (i - 8 < 10) := by omega
      rw [hC]
      simp [h10]

/-! ## Claim theorems -/

/-- Claim C1: for every 18-bit PGN value `p`, the `u32` wire form of
`Pgn::from(p)` (via `impl From<Pgn> for u32`) equals `p` with the PDU-specific
byte (bits 0-7) zeroed when `p`'s PDU-format byte (bits 8-15) is at most 239
(PDU1), and equals `p` unchanged when the PDU-format byte is at least 240
(PDU2). -/
theorem C1_pgn_wire_form (p : Nat) (hp : p < 2 ^ 18) :
    (Pgn.fromU32 p).toU32
      = if p / 2 ^ 8 % 2 ^ 8 ≤ 239 then p / 2 ^ 8 * 2 ^ 8 else p := by
  have hval : (Pgn.fromU32 p).val = p := by
    show p &&& J1939_PGN_MAX = p
    rw [and_pgn_max, Nat.mod_eq_of_lt hp]
  have hpf : (Pgn.fromU32 p).pdu_format = p / 2 ^ 8 % 2 ^ 8 := by
    rw [Pgn.pdu_format, hval, bvLoad]
  simp only [Pgn.toU32, Pgn.is_pdu1, hpf, hval, decide_eq_true_eq]
  by_cases hc : p / 2 ^ 8 % 2 ^ 8 ≤ 239
  · rw [if_pos hc, if_pos hc, and_pdu1_max]
    have h8 : p / 2 ^ 8 < 2 ^ 10 := by omega
    rw [Nat.mod_eq_of_lt h8]
  · rw [if_neg hc, if_neg hc]

theorem C1_pgn_wire_form_witness :
    (Pgn.fromU32 0xEE05).toU32
      = if 0xEE05 / 2 ^ 8 % 2 ^ 8 ≤ 239 then 0xEE05 / 2 ^ 8 * 2 ^ 8
        else 0xEE05 :=
  C1_pgn_wire_form 0xEE05 (by norm_num)

/-- Claim C4, counterexample: `Pgn::from(0xEE05)` is in PDU1 format
(`pdu_format = 0xEE = 238 ≤ 239`), yet `to_le_bytes` emits `0x05` as the
PDU-specific byte: the source copies the raw inner `u32`'s bytes and applies
no PDU1 masking, contradicting the claim that the emitted PDU-specific byte is
zero whenever `is_pdu1()` holds. -/
theorem C4_to_le_bytes_counterexample :
    (Pgn.fromU32 0xEE05).is_pdu1 = true ∧
      Pgn.to_le_bytes (Pgn.fromU32 0xEE05) = [0x05, 0xEE, 0x00] ∧
      decide ((Pgn.to_le_bytes (Pgn.fromU32 0xEE05)).getD 0 0 = 0) = false := by
  decide

/-- Claim C4, amended: `Pgn::to_le_bytes` emits the stored 18-bit value's
three little-endian bytes unchanged (no PDU1 masking is applied by the byte
encoding), and `Pgn::from_le_bytes` zero-extends the 3 bytes to 4 and
reconstructs the PGN, so encode/decode round-trips for every constructible
PGN. -/
theorem C4_le_bytes_raw_roundtrip (raw : Nat) :
    Pgn.to_le_bytes (Pgn.fromU32 raw)
        = [raw % 2 ^ 18 % 2 ^ 8, raw % 2 ^ 18 / 2 ^ 8 % 2 ^ 8,
            raw % 2 ^ 18 / 2 ^ 16 % 2 ^ 8] ∧
      Pgn.from_le_bytes (Pgn.to_le_bytes (Pgn.fromU32 raw)) = Pgn.fromU32 raw := by
  have hval : (Pgn.fromU32 raw).val = raw % 2 ^ 18 := and_pgn_max raw
  constructor
  · simp only [Pgn.to_le_bytes, hval]
  · simp only [Pgn.from_le_bytes, Pgn.to_le_bytes, List.getD_cons_zero,
      List.getD_cons_succ, hval]
    show Pgn.fromU32 _ = Pgn.fromU32 raw
    apply congrArg Pgn.mk
    rw [and_pgn_max, and_pgn_max]
    omega

/-- Claim C6: for every triple `(data_page, pdu_format, pdu_specific)` of a
`Bool` and two bytes, `Pgn::new` round-trips through its three field
accessors exactly; in particular `Pgn::new(true, 0xF0, 0x04)` has integer
(wire) form `0x01F004`. -/
theorem C6_pgn_new_accessors :
    (∀ (dp : Bool) (pf ps : Nat), pf < 2 ^ 8 → ps < 2 ^ 8 →
        (Pgn.new dp pf ps).data_page = dp ∧
          (Pgn.new dp pf ps).pdu_format = pf ∧
            (Pgn.new dp pf ps).pdu_specific = ps) ∧
      (Pgn.new true 0xF0 0x04).toU32 = 0x01F004 := by
  refine ⟨?_, by decide⟩
  intro dp pf ps hpf hps
  refine ⟨?_, ?_, ?_⟩
  · simp only [Pgn.new, Pgn.data_page, Pgn.set_data_page, Pgn.set_pdu_format,
      Pgn.set_pdu_specific, bitSet]
    rw [bitGet_eq_bvLoad]
    rw [bvLoad_bvStore_above _ 0 8 ps 16 1 (by norm_num)]
    rw [bvLoad_bvStore_above _ 8 8 pf 16 1 (by norm_num)]
    rw [bvLoad_bvStore_self]
    cases dp <;> decide
  · simp only [Pgn.new, Pgn.pdu_format, Pgn.set_data_page, Pgn.set_pdu_format,
      Pgn.set_pdu_specific, bitSet]
    rw [bvLoad_bvStore_above _ 0 8 ps 8 8 (by norm_num)]
    rw [bvLoad_bvStore_self]
    exact Nat.mod_eq_of_lt hpf
  · simp only [Pgn.new, Pgn.pdu_specific, Pgn.set_data_page, Pgn.set_pdu_format,
      Pgn.set_pdu_specific, bitSet]
    rw [bvLoad_bvStore_self]
    exact Nat.mod_eq_of_lt hps

theorem C6_pgn_new_accessors_witness :
    (Pgn.new true 0xAB 0xCD).data_page = true ∧
      (Pgn.new true 0xAB 0xCD).pdu_format = 0xAB ∧
        (Pgn.new true 0xAB 0xCD).pdu_specific = 0xCD :=
  C6_pgn_new_accessors.1 true 0xAB 0xCD (by norm_num) (by norm_num)

/-- Claim C7: the NAME built from `0x9704033501000004` decodes per the fixed
sub-field layout to `arbitrary_address_capable = true`, `industry_group = 1`,
`vehicle_system_instance = 7`, `vehicle_system = 2`, `function = 3`,
`function_instance = 6`, `manufacturer_code = 8`, `ecu_instance = 5` and
`identity_number = 4`. -/
theorem C7_name_decode_scenario :
    (Name.fromU64 0x9704033501000004).arbitrary_address_capable = true ∧
      (Name.fromU64 0x9704033501000004).industry_group = 1 ∧
      (Name.fromU64 0x9704033501000004).vehicle_system_instance = 7 ∧
      (Name.fromU64 0x9704033501000004).vehicle_system = 2 ∧
      (Name.fromU64 0x9704033501000004).function = 3 ∧
      (Name.fromU64 0x9704033501000004).function_instance = 6 ∧
      (Name.fromU64 0x9704033501000004).manufacturer_code = 8 ∧
      (Name.fromU64 0x9704033501000004).ecu_instance = 5 ∧
      (Name.fromU64 0x9704033501000004).identity_number = 4 := by
  decide

/-- Claim C8: the filter-mask enumerations encode to fixed constants —
`NameFilterMask::Full` to the all-ones 64-bit word, `PgnFilterMask::Full` to
the 18-bit all-ones value `2^18 - 1` (not 32-bit all-ones),
`PgnFilterMask::Pdu1` to the PDU1 match pattern `0x3FF00` that ignores the
low destination-specific byte, `AddrFilterMask::Full` to `0xFF` — and
`PgnFilterMask::Partial(mask)` is truncated to the 18-bit PGN width. -/
theorem C8_filter_mask_encodings :
    NameFilterMask.toU64 .Full = 2 ^ 64 - 1 ∧
      PgnFilterMask.toU32 .Full = 2 ^ 18 - 1 ∧
      PgnFilterMask.toU32 .Pdu1 = 0x3FF00 ∧
      AddrFilterMask.toU8 .Full = 0xFF ∧
      ∀ mask : Nat, PgnFilterMask.toU32 (.Partial mask) = mask % 2 ^ 18 := by
  refine ⟨by decide, by decide, by decide, by decide, ?_⟩
  intro mask
  exact and_pgn_max mask

/-- Claim C2: the socket's typestate is exactly one of `Unlinked`/`Linked`;
`open` produces an `Unlinked` socket, `connect` consumes its argument and
always produces a `Linked` socket, no operation carries a `Linked` socket
back to `Unlinked`, and the stream-style `read`/`write` operations are absent
(`none`, a compile-time absence rather than a runtime rejection) on the
`Unlinked` type. -/
theorem C2_socket_typestate :
    (∀ s : PeerState, s = .Unlinked ∨ s = .Linked) ∧
      (PeerState.Unlinked == PeerState.Linked) = false ∧
      openState = .Unlinked ∧
      (∀ s, stepState .connect s = some .Linked) ∧
      (∀ op, stepState op .Linked = some .Linked ∨
        stepState op .Linked = none) ∧
      stepState .read .Unlinked = none ∧
      stepState .write .Unlinked = none := by
  refine ⟨?_, by decide, rfl, fun s => rfl, ?_, rfl, rfl⟩
  · intro s
    cases s
    · exact Or.inl rfl
    · exact Or.inr rfl
  · intro op
    cases op <;> simp [stepState]

/-- Claim C3, counterexample: the source exposes nine NAME sub-field
accessor/mutator pairs, not ten — their widths cover 63 of the 64 bits and
none of their bit ranges contains the reserved bit 48, so there is no tenth
settable sub-field as the claim's quantification presupposes. -/
theorem C3_name_fields_counterexample :
    nameFieldRanges.length = 9 ∧
      (nameFieldRanges.map fun r => r.2).sum = 63 ∧
      decide (∃ r ∈ nameFieldRanges, r.1 ≤ 48 ∧ 48 < r.1 + r.2) = false := by
  decide

/-- Claim C3, amended: for every 64-bit NAME value `n` and every one of the
nine settable NAME sub-fields (the reserved bit 48 has no mutator), setting
that sub-field of `Name::from(n)` to a new value and reading it back yields
the new value truncated to the sub-field's bit width, and every bit of the
64-bit word outside that sub-field's range is identical to its value before
the write. -/
theorem C3_name_field_roundtrip_frame :
    (∀ (n : Nat) (b : Bool),
        (Name.set_arbitrary_address_capable (Name.fromU64 n)
            b).arbitrary_address_capable = b ∧
          ∀ k, k < 63 ∨ 64 ≤ k →
            Nat.testBit (Name.set_arbitrary_address_capable (Name.fromU64 n)
                b).val k
              = Nat.testBit (Name.fromU64 n).val k) ∧
      (∀ (n v : Nat),
        (Name.set_industry_group (Name.fromU64 n) v).industry_group
            = v % 2 ^ 3 ∧
          ∀ k, k < 60 ∨ 63 ≤ k →
            Nat.testBit (Name.set_industry_group (Name.fromU64 n) v).val k
              = Nat.testBit (Name.fromU64 n).val k) ∧
      (∀ (n v : Nat),
        (Name.set_vehicle_system_instance (Name.fromU64 n)
              v).vehicle_system_instance
            = v % 2 ^ 4 ∧
          ∀ k, k < 56 ∨ 60 ≤ k →
            Nat.testBit (Name.set_vehicle_system_instance (Name.fromU64 n)
                v).val k
              = Nat.testBit (Name.fromU64 n).val k) ∧
      (∀ (n v : Nat),
        (Name.set_vehicle_system (Name.fromU64 n) v).vehicle_system
            = v % 2 ^ 7 ∧
          ∀ k, k < 49 ∨ 56 ≤ k →
            Nat.testBit (Name.set_vehicle_system (Name.fromU64 n) v).val k
              = Nat.testBit (Name.fromU64 n).val k) ∧
      (∀ (n v : Nat),
        (Name.set_function (Name.fromU64 n) v).function = v % 2 ^ 8 ∧
          ∀ k, k < 40 ∨ 48 ≤ k →
            Nat.testBit (Name.set_function (Name.fromU64 n) v).val k
              = Nat.testBit (Name.fromU64 n).val k) ∧
      (∀ (n v : Nat),
        (Name.set_function_instance (Name.fromU64 n) v).function_instance
            = v % 2 ^ 5 ∧
          ∀ k, k < 35 ∨ 40 ≤ k →
            Nat.testBit (Name.set_function_instance (Name.fromU64 n) v).val k
              = Nat.testBit (Name.fromU64 n).val k) ∧
      (∀ (n v : Nat),
        (Name.set_ecu_instance (Name.fromU64 n) v).ecu_instance = v % 2 ^ 3 ∧
          ∀ k, k < 32 ∨ 35 ≤ k →
            Nat.testBit (Name.set_ecu_instance (Name.fromU64 n) v).val k
              = Nat.testBit (Name.fromU64 n).val k) ∧
      (∀ (n v : Nat),
        (Name.set_manufacturer_code (Name.fromU64 n) v).manufacturer_code
            = v % 2 ^ 11 ∧
          ∀ k, k < 21 ∨ 32 ≤ k →
            Nat.testBit (Name.set_manufacturer_code (Name.fromU64 n) v).val k
              = Nat.testBit (Name.fromU64 n).val k) ∧
      ∀ (n v : Nat),
        (Name.set_identity_number (Name.fromU64 n) v).identity_number
            = v % 2 ^ 21 ∧
          ∀ k, k < 0 ∨ 21 ≤ k →
            Nat.testBit (Name.set_identity_number (Name.fromU64 n) v).val k
              = Nat.testBit (Name.fromU64 n).val k := by
  refine ⟨fun n b => ⟨bitGet_bitSet_self _ 63 b, fun k hk =>
      bvStore_testBit_outside _ 63 1 _ k hk⟩,
    fun n v => ⟨bvLoad_bvStore_self _ 60 3 v, fun k hk =>
      bvStore_testBit_outside _ 60 3 v k hk⟩,
    fun n v => ⟨bvLoad_bvStore_self _ 56 4 v, fun k hk =>
      bvStore_testBit_outside _ 56 4 v k hk⟩,
    fun n v => ⟨bvLoad_bvStore_self _ 49 7 v, fun k hk =>
      bvStore_testBit_outside _ 49 7 v k hk⟩,
    fun n v => ⟨bvLoad_bvStore_self _ 40 8 v, fun k hk =>
      bvStore_testBit_outside _ 40 8 v k hk⟩,
    fun n v => ⟨bvLoad_bvStore_self _ 35 5 v, fun k hk =>
      bvStore_testBit_outside _ 35 5 v k hk⟩,
    fun n v => ⟨bvLoad_bvStore_self _ 32 3 v, fun k hk =>
      bvStore_testBit_outside _ 32 3 v k hk⟩,
    fun n v => ⟨bvLoad_bvStore_self _ 21 11 v, fun k hk =>
      bvStore_testBit_outside _ 21 11 v k hk⟩,
    fun n v => ⟨bvLoad_bvStore_self _ 0 21 v, fun k hk =>
      bvStore_testBit_outside _ 0 21 v k hk⟩⟩

theorem C3_name_field_roundtrip_frame_witness :
    (Name.set_industry_group (Name.fromU64 0x9704033501000004)
          5).industry_group
        = 5 % 2 ^ 3 ∧
      Nat.testBit (Name.set_industry_group (Name.fromU64 0x9704033501000004)
          5).val 0
        = Nat.testBit (Name.fromU64 0x9704033501000004).val 0 :=
  ⟨(C3_name_field_roundtrip_frame.2.1 0x9704033501000004 5).1,
    (C3_name_field_roundtrip_frame.2.1 0x9704033501000004 5).2 0
      (Or.inl (by norm_num))⟩

/-- Claim C5: decoding the generic socket-address container fails with
`InvalidAddressFamily` exactly when the family tag differs from `AF_CAN` (the
decoder is a total function, so it never panics), and the receive path turns
a source address that fails this validation into an `other`-kind I/O error
with the message "Invalid source address". -/
theorem C5_addr_family_validation :
    (∀ a : SockAddrStorage,
        J1939SockAddr.try_from a = .error .InvalidAddressFamily ↔
          a.ss_family ≠ AF_CAN) ∧
      ∀ (n : Nat) (a : SockAddrStorage), a.ss_family ≠ AF_CAN →
        recv_from_decode n a = .error (.other "Invalid source address") := by
  constructor
  · intro a
    constructor
    · intro h
      by_contra hfam
      rw [J1939SockAddr.try_from, if_neg (not_not_intro hfam)] at h
      exact Except.noConfusion h
    · intro hfam
      rw [J1939SockAddr.try_from, if_pos hfam]
  · intro n a hfam
    rw [recv_from_decode, J1939SockAddr.try_from, if_pos hfam]

theorem C5_addr_family_validation_witness :
    J1939SockAddr.try_from ⟨2, 0, 0, 0, 0⟩ = .error .InvalidAddressFamily ∧
      recv_from_decode 8 ⟨2, 0, 0, 0, 0⟩
        = .error (.other "Invalid source address") :=
  ⟨(C5_addr_family_validation.1 ⟨2, 0, 0, 0, 0⟩).mpr (by decide),
    C5_addr_family_validation.2 8 ⟨2, 0, 0, 0, 0⟩ (by decide)⟩

/-- Claim C9: installing an empty filter list performs the option-setting call
with a null pointer and length zero (the empty list is encoded as "no
filters"), and no filter list ever produces a zero-length transfer with a
non-null pointer: every transfer either uses the null pointer or has positive
length. -/
theorem C9_empty_filter_list :
    set_filters_transfer [] = ⟨true, 0⟩ ∧
      ∀ fs : List J1939Filter,
        (set_filters_transfer fs).ptr_null = true ∨
          0 < (set_filters_transfer fs).len := by
  refine ⟨rfl, ?_⟩
  intro fs
  cases fs with
  | nil => exact Or.inl rfl
  | cons f t =>
    refine Or.inr ?_
    show 0 < (set_socket_option_mult_transfer (f :: t)).len
    rw [set_socket_option_mult_transfer, if_neg (by simp)]
    show 0 < (f :: t).length * sizeof_j1939_filter
    simp only [List.length_cons, sizeof_j1939_filter]
    omega

/-- Claim C10: for every 18-bit PGN in PDU1 format (PDU-format byte at most
239) and every mask, the filter record built by `PgnFilter::new` stores the
PDU1-masked wire form of the PGN — its raw value with the PDU-specific byte
zeroed — as its `pgn` match value, not the raw 18-bit value. -/
theorem C10_pgn_filter_pdu1_masked (p : Pgn) (m : PgnFilterMask)
    (hval : p.val < 2 ^ 18) (hpdu : p.pdu_format ≤ 239) :
    (PgnFilter.new p m).pgn = p.val / 2 ^ 8 * 2 ^ 8 := by
  show p.toU32 = _
  have h : p.is_pdu1 = true := by
    simp only [Pgn.is_pdu1]
    exact decide_eq_true hpdu
  simp only [Pgn.toU32]
  rw [if_pos h, and_pdu1_max]
  have h8 : p.val / 2 ^ 8 < 2 ^ 10 := by omega
  rw [Nat.mod_eq_of_lt h8]

theorem C10_pgn_filter_pdu1_masked_witness :
    (PgnFilter.new (Pgn.fromU32 0xEE05) PgnFilterMask.Full).pgn
      = (Pgn.fromU32 0xEE05).val / 2 ^ 8 * 2 ^ 8 :=
  C10_pgn_filter_pdu1_masked (Pgn.fromU32 0xEE05) PgnFilterMask.Full
    (by decide) (by decide)

end SocketCan
